import Mathlib

/-!
Shallow embedding of the session-relay backend of the gemini-mm-live-demo
repository (src/backend/app), covering the audio buffer, the audio
processor, the client input handler, the transcription processor, the
tool-call delivery queue and the speech-gap delivery gate, together with
theorems settling the frozen claims about them.

Modelling conventions:
* Python wall-clock values (`time.time()`, event-loop time) are exact
  rationals passed in as explicit parameters.
* Python float millisecond durations rounded with `round(x, 2)` are kept
  exactly as integer hundredths of a millisecond (field
  `expected_duration_ms_x100`); `round` half-to-even is modelled exactly
  over the integer fraction.
* `uuid.uuid4()` is modelled as a fresh-counter draw (`next_uuid`): all
  that the code relies on is freshness.
* Network sends are modelled as pure effect lists: `ClientMsg` values for
  sends on the client websocket, `AssistantMsg` values for sends into the
  assistant (Gemini Live) streaming session.
* `asyncio.Queue` is modelled with its unfinished-task counter, so that
  `task_done()` bookkeeping (including the `ValueError` it raises when
  called too often) is visible.
-/

namespace GeminiRelay

/-! ### Configuration (src/backend/app/core/config.py) -/

def OUTPUT_SAMPLE_RATE : ℕ := 24000

def INPUT_SAMPLE_RATE : ℕ := 16000

def MAX_BUFFER_SIZE : ℕ := 5000

def BUFFER_TIMEOUT_SECONDS : ℚ := 3

def DISABLE_VAD : Bool := false

/-! ### Audio metadata arithmetic (src/backend/app/utils/audio.py) -/

/-- Python `round(n / d, 2)` for a non-negative integer fraction `n / d`,
returned as integer hundredths: rounds `n * 100 / d` to the nearest
integer, ties to even (Python 3 rounding). -/
def roundx100 (n d : ℕ) : ℕ :=
  if 2 * (n * 100 % d) < d then n * 100 / d
  else if 2 * (n * 100 % d) > d then n * 100 / d + 1
  else if (n * 100 / d) % 2 = 0 then n * 100 / d
  else n * 100 / d + 1

/-- `expected_duration_ms` in hundredths of a millisecond:
`samples_per_chunk = chunk_size // 2` (PCM16), then
`round(samples_per_chunk / sample_rate * 1000, 2)`. -/
def duration_x100 (chunk_size sample_rate : ℕ) : ℕ :=
  roundx100 (chunk_size / 2 * 1000) sample_rate

/-- Metadata dict attached to an audio chunk.  The Python dict keys
`buffered` and `flushed_by_timeout` are only present on some chunks; an
absent key is modelled as `false`. -/
structure ChunkMeta where
  sequence : ℕ
  size_bytes : ℕ
  expected_duration_ms_x100 : ℕ
  sample_rate : ℕ
  timestamp : ℚ
  buffered : Bool
  flushed_by_timeout : Bool
  deriving DecidableEq, Repr

/-- A buffered audio chunk: raw bytes plus metadata
(the `"type": "buffered_audio"` dict built by `add_audio_chunk`). -/
structure BufferedAudio where
  audio_data : List ℕ
  metadata : ChunkMeta
  deriving DecidableEq, Repr

/-- The caller-supplied extra metadata that `AudioProcessor._buffer_audio`
passes to `add_audio_chunk` (`{"sequence": ..., "timestamp": ...}`); these
keys override the buffer-generated ones (`**(metadata or {})` comes last). -/
structure MetaOverride where
  sequence : ℕ
  timestamp : ℚ
  deriving DecidableEq, Repr

/-- `AudioBuffer` (src/backend/app/utils/audio.py): bounded FIFO of audio
chunks with an internal sequence counter. -/
structure AudioBuffer where
  max_size : ℕ
  buffer : List BufferedAudio
  seq_counter : ℕ
  deriving DecidableEq, Repr

/-- `AudioBuffer.__init__`: `self.max_size = max_size or settings.MAX_BUFFER_SIZE`
(Python `or`: `None` and `0` both fall back to the default). -/
def mkAudioBuffer (max_size : Option ℕ) : AudioBuffer :=
  { max_size :=
      match max_size with
      | none => MAX_BUFFER_SIZE
      | some k => if k = 0 then MAX_BUFFER_SIZE else k
    buffer := []
    seq_counter := 0 }

/-- `AudioBuffer._remove_overflow_chunks`: pop from the front, one at a
time, while the buffer is longer than `max_size`; returns
(remaining buffer, removed chunks in pop order). -/
def removeOverflowChunks {α : Type} (max_size : ℕ) : List α → List α × List α
  | [] => ([], [])
  | h :: t =>
    if t.length + 1 > max_size then
      let p := removeOverflowChunks max_size t
      (p.1, h :: p.2)
    else (h :: t, [])

/-- `AudioBuffer.add_audio_chunk`: build the chunk record (incrementing the
internal sequence counter), append it, then evict from the front on
overflow.  Returns (stored chunk, new buffer, removed chunks). -/
def AudioBuffer.add_audio_chunk (b : AudioBuffer) (audio_data : List ℕ)
    (metadata : Option MetaOverride) (now : ℚ) :
    BufferedAudio × AudioBuffer × List BufferedAudio :=
  let counter := b.seq_counter + 1
  let chunk_size := audio_data.length
  let baseMeta : ChunkMeta :=
    { sequence := counter
      size_bytes := chunk_size
      expected_duration_ms_x100 := duration_x100 chunk_size OUTPUT_SAMPLE_RATE
      sample_rate := OUTPUT_SAMPLE_RATE
      timestamp := now
      buffered := true
      flushed_by_timeout := false }
  let meta :=
    match metadata with
    | none => baseMeta
    | some ov => { baseMeta with sequence := ov.sequence, timestamp := ov.timestamp }
  let chunk : BufferedAudio := ⟨audio_data, meta⟩
  let buf1 := b.buffer ++ [chunk]
  if buf1.length > b.max_size then
    let p := removeOverflowChunks b.max_size buf1
    (chunk, { b with buffer := p.1, seq_counter := counter }, p.2)
  else
    (chunk, { b with buffer := buf1, seq_counter := counter }, [])

/-- `AudioBuffer.flush_all`: return all buffered chunks (oldest first) and
clear the buffer. -/
def AudioBuffer.flush_all (b : AudioBuffer) : List BufferedAudio × AudioBuffer :=
  (b.buffer, { b with buffer := [] })

/-- `AudioBuffer.size`. -/
def AudioBuffer.size (b : AudioBuffer) : ℕ := b.buffer.length

/-- `AudioBuffer.get_pressure_level`: fill ratio `> 0.9` is high,
`> 0.8` is medium, otherwise low.  Ratio comparisons are done without
division (`len / max > 9/10  ↔  10 * len > 9 * max`). -/
def AudioBuffer.get_pressure_level (b : AudioBuffer) : String :=
  if 10 * b.buffer.length > 9 * b.max_size then "high"
  else if 10 * b.buffer.length > 8 * b.max_size then "medium"
  else "low"

/-- `AudioMetadata.create_metadata` (type `"audio_metadata"`), with the
`sample_rate or settings.OUTPUT_SAMPLE_RATE` fallback and the caller's
`timestamp` kwarg. -/
def create_metadata (sequence chunk_size : ℕ) (sample_rate : Option ℕ)
    (timestamp : ℚ) : ChunkMeta :=
  let rate :=
    match sample_rate with
    | none => OUTPUT_SAMPLE_RATE
    | some r => if r = 0 then OUTPUT_SAMPLE_RATE else r
  { sequence := sequence
    size_bytes := chunk_size
    expected_duration_ms_x100 := duration_x100 chunk_size rate
    sample_rate := rate
    timestamp := timestamp
    buffered := false
    flushed_by_timeout := false }

/-! ### Message types (effects on the two channels) -/

/-- JSON / binary messages sent on the client websocket. -/
inductive ClientMsg
  | playbackState (sequence : ℕ) (vad_should_activate : Bool)
  | audioMetadata (meta : ChunkMeta)
  | audioBytes (data : List ℕ)
  | bufferPressure (level : String) (buffer_size max_size : ℕ)
  | audioTruncation (chunks_removed buffer_size : ℕ)
  | transcriptionUpdate (id : ℕ) (text : String) (sender : String)
      (kind : String) (is_final : Bool)
  | interruptPlayback
  deriving DecidableEq, Repr

/-- Messages sent into the assistant (Gemini Live) streaming session. -/
inductive AssistantMsg
  | realtimeAudio (data : List ℕ)
  | clientContent (text : String)
  | toolResponse (name : String) (uuid : Option String) (id : Option String)
  deriving DecidableEq, Repr

/-! ### Session state (src/backend/app/handlers/websocket_handler.py) -/

/-- The per-connection `session_state` dict built by
`WebSocketHandler._initialize_session_state`, plus the fresh-uuid counter
used to model `uuid.uuid4()`. -/
structure SessionState where
  connection_start_time : ℚ
  client_ready_for_audio : Bool
  mic_audio_buffer : AudioBuffer
  gemini_audio_buffer : AudioBuffer
  audio_sequence_counter : ℕ
  active_processing : Bool
  current_user_utterance_id : Option ℕ
  accumulated_user_speech_text : String
  current_model_utterance_id : Option ℕ
  accumulated_model_speech_text : String
  next_uuid : ℕ
  deriving DecidableEq, Repr

/-- `_initialize_session_state`. -/
def initSessionState (connection_start_time : ℚ) : SessionState :=
  { connection_start_time := connection_start_time
    client_ready_for_audio := false
    mic_audio_buffer := mkAudioBuffer none
    gemini_audio_buffer := mkAudioBuffer none
    audio_sequence_counter := 0
    active_processing := true
    current_user_utterance_id := none
    accumulated_user_speech_text := ""
    current_model_utterance_id := none
    accumulated_model_speech_text := ""
    next_uuid := 0 }

/-! ### AudioProcessor (src/backend/app/handlers/audio_processor.py) -/

/-- `AudioProcessor._handle_buffer_timeout`: mark the client ready, flush
the Gemini-side buffer, and for each flushed chunk send its metadata
(stamped `flushed_by_timeout: True`) followed by its raw bytes. -/
def handle_buffer_timeout (st : SessionState) : SessionState × List ClientMsg :=
  let p := st.gemini_audio_buffer.flush_all
  let st1 := { st with client_ready_for_audio := true, gemini_audio_buffer := p.2 }
  let out := p.1.flatMap fun c =>
    [ClientMsg.audioMetadata { c.metadata with flushed_by_timeout := true },
     ClientMsg.audioBytes c.audio_data]
  (st1, out)

/-- `AudioProcessor._send_audio_immediately`: assign the next session
sequence number, build metadata, and send playback-state signal, metadata,
then raw bytes. -/
def send_audio_immediately (st : SessionState) (audio_data : List ℕ)
    (now : ℚ) : SessionState × List ClientMsg :=
  let sequence_num := st.audio_sequence_counter + 1
  let st1 := { st with audio_sequence_counter := sequence_num }
  let meta := create_metadata sequence_num audio_data.length
    (some OUTPUT_SAMPLE_RATE) now
  (st1,
   [ClientMsg.playbackState sequence_num (!DISABLE_VAD),
    ClientMsg.audioMetadata meta,
    ClientMsg.audioBytes audio_data])

/-- `AudioProcessor._buffer_audio`: assign the next session sequence
number, enqueue into the Gemini-side buffer (overriding `sequence` and
`timestamp` in the chunk metadata), then emit pressure / truncation
warnings as needed. -/
def buffer_audio (st : SessionState) (audio_data : List ℕ)
    (now : ℚ) : SessionState × List ClientMsg :=
  let sequence_num := st.audio_sequence_counter + 1
  let r := st.gemini_audio_buffer.add_audio_chunk audio_data
    (some ⟨sequence_num, now⟩) now
  let buf := r.2.1
  let removed := r.2.2
  let st1 := { st with audio_sequence_counter := sequence_num,
                       gemini_audio_buffer := buf }
  let level := buf.get_pressure_level
  let pressureOut :=
    if level = "medium" ∨ level = "high" then
      [ClientMsg.bufferPressure level buf.size buf.max_size]
    else []
  let truncationOut :=
    if removed.length > 0 then
      [ClientMsg.audioTruncation removed.length buf.size]
    else []
  (st1, pressureOut ++ truncationOut)

/-- `AudioProcessor.process_audio_response`: run the buffer-timeout
auto-flush if the client is still not ready past
`BUFFER_TIMEOUT_SECONDS`, then either send immediately (ready) or
buffer (not ready). -/
def process_audio_response (st : SessionState) (audio_data : List ℕ)
    (now : ℚ) : SessionState × List ClientMsg :=
  let p :=
    if !st.client_ready_for_audio ∧
        now - st.connection_start_time > BUFFER_TIMEOUT_SECONDS then
      handle_buffer_timeout st
    else (st, [])
  let st1 := p.1
  if st1.client_ready_for_audio then
    let q := send_audio_immediately st1 audio_data now
    (q.1, p.2 ++ q.2)
  else
    let q := buffer_audio st1 audio_data now
    (q.1, p.2 ++ q.2)

/-! ### ClientInputHandler (src/backend/app/handlers/client_input_handler.py) -/

/-- `ClientInputHandler._handle_audio_data`: an empty chunk is only
logged; any non-empty chunk is forwarded immediately to the assistant
stream as raw realtime audio (`session.send_realtime_input`), with no
readiness check and no buffering. -/
def handle_audio_data (st : SessionState) (audio_chunk : List ℕ) :
    SessionState × List AssistantMsg :=
  if audio_chunk = [] then (st, [])
  else (st, [AssistantMsg.realtimeAudio audio_chunk])

/-- `ClientInputHandler._handle_client_ready_signal`: set
`client_ready_for_audio`, flush the mic buffer entirely, and for each
flushed chunk send, on the client websocket, its metadata record (with
`flushed_by_timeout: True` stamped on) followed by its raw bytes.
Nothing is sent into the assistant session (the function makes no
`session.*` call), hence the always-empty `AssistantMsg` component. -/
def handle_client_ready_signal (st : SessionState) :
    SessionState × List ClientMsg × List AssistantMsg :=
  let p := st.mic_audio_buffer.flush_all
  let st1 := { st with client_ready_for_audio := true, mic_audio_buffer := p.2 }
  let out := p.1.foldl
    (fun acc c =>
      acc ++ [ClientMsg.audioMetadata { c.metadata with flushed_by_timeout := true },
              ClientMsg.audioBytes c.audio_data])
    []
  (st1, out, [])

/-- `ClientInputHandler._handle_text_prompt`: forward as a user text turn,
with the single sentinel rewrite. -/
def handle_text_prompt (message_text : String) : List AssistantMsg :=
  let prompt :=
    if message_text = "SEND_TEST_AUDIO_PLEASE" then
      "Hello Gemini, please say testing one two three."
    else message_text
  [AssistantMsg.clientContent prompt]

/-! ### TranscriptionProcessor (src/backend/app/handlers/transcription_processor.py) -/

/-- The fields of a Gemini `server_content` event that the transcription
processor reads.  A `none` / empty-string transcription models an
absent or falsy attribute. -/
structure ServerContent where
  input_transcription : Option String
  output_transcription : Option String
  turn_complete : Bool
  generation_complete : Bool
  deriving DecidableEq, Repr

/-- `TranscriptionProcessor._process_user_transcription`. -/
def process_user_transcription (st : SessionState) (sc : ServerContent) :
    SessionState × List ClientMsg :=
  match sc.input_transcription with
  | none => (st, [])
  | some chunk =>
    if chunk = "" then (st, [])
    else
      let st1 :=
        match st.current_user_utterance_id with
        | some _ => st
        | none =>
          { st with current_user_utterance_id := some st.next_uuid,
                    accumulated_user_speech_text := "",
                    next_uuid := st.next_uuid + 1 }
      let st2 := { st1 with accumulated_user_speech_text :=
                     st1.accumulated_user_speech_text ++ chunk }
      if st2.accumulated_user_speech_text = "" then (st2, [])
      else
        match st2.current_user_utterance_id with
        | none => (st2, [])
        | some uid =>
          (st2, [ClientMsg.transcriptionUpdate uid
                  st2.accumulated_user_speech_text "user"
                  "user_transcription_update" false])

/-- `TranscriptionProcessor._process_model_transcription`. -/
def process_model_transcription (st : SessionState) (sc : ServerContent) :
    SessionState × List ClientMsg :=
  match sc.output_transcription with
  | none => (st, [])
  | some chunk =>
    if chunk = "" then (st, [])
    else
      let st1 :=
        match st.current_model_utterance_id with
        | some _ => st
        | none =>
          { st with current_model_utterance_id := some st.next_uuid,
                    accumulated_model_speech_text := "",
                    next_uuid := st.next_uuid + 1 }
      let st2 := { st1 with accumulated_model_speech_text :=
                     st1.accumulated_model_speech_text ++ chunk }
      match st2.current_model_utterance_id with
      | none => (st2, [])
      | some uid =>
        (st2, [ClientMsg.transcriptionUpdate uid
                st2.accumulated_model_speech_text "model"
                "model_response_update" false])

/-- `TranscriptionProcessor._handle_model_generation_complete`: emit the
final model update if an utterance is open with non-empty text, then
reset the model-side state. -/
def handle_model_generation_complete (st : SessionState) :
    SessionState × List ClientMsg :=
  let out :=
    match st.current_model_utterance_id with
    | none => []
    | some uid =>
      if st.accumulated_model_speech_text = "" then []
      else [ClientMsg.transcriptionUpdate uid
             st.accumulated_model_speech_text "model"
             "model_response_update" true]
  ({ st with current_model_utterance_id := none,
             accumulated_model_speech_text := "" }, out)

/-- `TranscriptionProcessor._handle_turn_complete`: emit the final user
update if an utterance is open with non-empty text, then reset BOTH
sides' utterance state. -/
def handle_turn_complete (st : SessionState) : SessionState × List ClientMsg :=
  let out :=
    match st.current_user_utterance_id with
    | none => []
    | some uid =>
      if st.accumulated_user_speech_text = "" then []
      else [ClientMsg.transcriptionUpdate uid
             st.accumulated_user_speech_text "user"
             "user_transcription_update" true]
  ({ st with current_user_utterance_id := none,
             accumulated_user_speech_text := "",
             current_model_utterance_id := none,
             accumulated_model_speech_text := "" }, out)

/-- `TranscriptionProcessor._handle_completion_events`: generation
completion first, then turn completion. -/
def handle_completion_events (st : SessionState) (sc : ServerContent) :
    SessionState × List ClientMsg :=
  let p := if sc.generation_complete then handle_model_generation_complete st
           else (st, [])
  let q := if sc.turn_complete then handle_turn_complete p.1 else (p.1, [])
  (q.1, p.2 ++ q.2)

/-- `TranscriptionProcessor.process_transcriptions`: user transcription,
then model transcription, then completion events. -/
def process_transcriptions (st : SessionState) (sc : ServerContent) :
    SessionState × List ClientMsg :=
  let a := process_user_transcription st sc
  let b := process_model_transcription a.1 sc
  let c := handle_completion_events b.1 sc
  (c.1, a.2 ++ b.2 ++ c.2)

/-- Run the transcription processor over a list of server-content events,
collecting all client updates. -/
def run_transcriptions (st : SessionState) :
    List ServerContent → SessionState × List ClientMsg
  | [] => (st, [])
  | sc :: rest =>
    let p := process_transcriptions st sc
    let q := run_transcriptions p.1 rest
    (q.1, p.2 ++ q.2)

/-! ### Speech state and the silence-based delivery gate
(src/backend/app/handlers/gemini_response_handler.py) -/

/-- The `speech_state` dict of `GeminiResponseHandler`. -/
structure SpeechState where
  is_gemini_speaking : Bool
  last_audio_timestamp : Option ℚ
  speech_start_time : Option ℚ
  pending_tool_responses : ℤ
  deriving DecidableEq, Repr

def SPEECH_COMPLETION_THRESHOLD : ℚ := 3 / 2

/-- `GeminiResponseHandler._check_speech_completion_and_deliver_responses`,
as the decision it takes: `none` means no delivery attempt, `some reason`
means `_deliver_queued_tool_responses(reason)` is invoked.  The Python
guard `if self.speech_state['last_audio_timestamp']:` is a truthiness
test, so both `None` and `0.0` are treated as unset. -/
def check_speech_completion (speech : SpeechState) (queue_is_empty : Bool)
    (now : ℚ) : Option String :=
  if !speech.is_gemini_speaking ∨ queue_is_empty then none
  else
    match speech.last_audio_timestamp with
    | none => none
    | some t =>
      if t = 0 then none
      else if now - t > SPEECH_COMPLETION_THRESHOLD then
        some "speech_gap_detected"
      else none

/-! ### Tool response delivery (src/backend/app/handlers/gemini_response_handler.py)

`_deliver_queued_tool_responses` drains `tool_results_queue`, an
`asyncio.Queue`.  The queue's unfinished-task counter is modelled
explicitly because the drain loop calls `task_done()`: once in a
`finally:` block that runs on every loop exit (including `continue`), and
once more, explicitly, on the duplicate-skip path before `continue` —
`asyncio.Queue.task_done` raises `ValueError` when called more times than
there were puts, and that exception propagates out of the drain. -/

/-- An item of `tool_results_queue`: either a `types.FunctionResponse`
(it has `name` and `response` attributes; `uuid` is the optional
`response['uuid']` entry used for the dedup key) or any other payload,
which is sent via `send_client_content`. -/
inductive QueuedItem
  | functionResponse (name : String) (uuid : Option String) (id : Option String)
  | otherContent (payload : String)
  deriving DecidableEq, Repr

/-- The dedup key `f"{function_response.name}-{function_response.response.get('uuid', '')}"`. -/
def dedupKey (name : String) (uuid : Option String) : String :=
  name ++ "-" ++ uuid.getD ""

/-- `asyncio.Queue.task_done`: decrement the unfinished-task counter, or
raise `ValueError` if it is already zero. -/
def task_done (unfinished : ℕ) : Except String ℕ :=
  if unfinished = 0 then Except.error "task_done called too many times"
  else Except.ok (unfinished - 1)

/-- The handler state that `_deliver_queued_tool_responses` reads and
writes: the queue (with its unfinished-task counter), the
`processed_tool_calls` dedup set, the speech state fields it updates, the
`is_tool_response` flag, and the sends made so far (tool responses via
`send_tool_response`, other payloads via `send_client_content`). -/
structure DeliverState where
  queue : List QueuedItem
  unfinished : ℕ
  processed_tool_calls : List String
  is_gemini_speaking : Bool
  pending_tool_responses : ℤ
  is_tool_response : Bool
  sent_tool_responses : List QueuedItem
  sent_client_content : List QueuedItem
  deriving DecidableEq, Repr

/-- Accumulator of the drain loop. -/
structure DrainAcc where
  unfinished : ℕ
  processed_tool_calls : List String
  is_tool_response : Bool
  sent_tool_responses : List QueuedItem
  sent_client_content : List QueuedItem
  response_count : ℕ
  deriving DecidableEq, Repr

/-- The `while not queue.empty():` drain loop of
`_deliver_queued_tool_responses`, one iteration per queued item.
On a duplicate dedup key the item is dequeued and skipped, but
`task_done` runs twice (explicit call, then the `finally:` on
`continue`); on every other item it runs once, after the send. -/
def drain_loop (acc : DrainAcc) : List QueuedItem → Except String DrainAcc
  | [] => Except.ok acc
  | item :: rest =>
    match item with
    | QueuedItem.functionResponse name uuid _ =>
      let key := dedupKey name uuid
      if key ∈ acc.processed_tool_calls then
        match task_done acc.unfinished with
        | Except.error e => Except.error e
        | Except.ok u1 =>
          match task_done u1 with
          | Except.error e => Except.error e
          | Except.ok u2 => drain_loop { acc with unfinished := u2 } rest
      else
        let acc1 := { acc with
          is_tool_response := true
          sent_tool_responses := acc.sent_tool_responses ++ [item]
          processed_tool_calls := key :: acc.processed_tool_calls
          response_count := acc.response_count + 1 }
        match task_done acc1.unfinished with
        | Except.error e => Except.error e
        | Except.ok u1 => drain_loop { acc1 with unfinished := u1 } rest
    | QueuedItem.otherContent _ =>
      let acc1 := { acc with
        sent_client_content := acc.sent_client_content ++ [item]
        response_count := acc.response_count + 1 }
      match task_done acc1.unfinished with
      | Except.error e => Except.error e
      | Except.ok u1 => drain_loop { acc1 with unfinished := u1 } rest

/-- `GeminiResponseHandler._deliver_queued_tool_responses`: early return on
an empty queue; otherwise drain in FIFO order, then — only when at least
one response was actually delivered — reset `is_gemini_speaking` and
decrement `pending_tool_responses` by the delivered count, floored at 0.
An uncaught `ValueError` from `task_done` aborts the whole call. -/
def deliver_queued_tool_responses (st : DeliverState) :
    Except String DeliverState :=
  if st.queue = [] then Except.ok st
  else
    match drain_loop
        { unfinished := st.unfinished
          processed_tool_calls := st.processed_tool_calls
          is_tool_response := st.is_tool_response
          sent_tool_responses := st.sent_tool_responses
          sent_client_content := st.sent_client_content
          response_count := 0 } st.queue with
    | Except.error e => Except.error e
    | Except.ok acc =>
      let st1 := { st with
        queue := []
        unfinished := acc.unfinished
        processed_tool_calls := acc.processed_tool_calls
        is_tool_response := acc.is_tool_response
        sent_tool_responses := acc.sent_tool_responses
        sent_client_content := acc.sent_client_content }
      if acc.response_count > 0 then
        Except.ok { st1 with
          is_gemini_speaking := false
          pending_tool_responses :=
            max 0 (st1.pending_tool_responses - acc.response_count) }
      else Except.ok st1

/-! ### Tool-call execution (src/backend/app/handlers/tool_call_processor.py
and src/backend/app/tools/registry.py)

Completion of a launched execution task is modelled as the pair of effect
lists it produces: `ToolTaskEffects.queued` are the `FunctionResponse`
objects put on `tool_results_queue`, `ToolTaskEffects.direct_sends` are
the messages sent straight into the assistant session from inside the
task. -/

/-- A `types.FunctionResponse` as built by the tool-call paths. -/
structure ToolFunctionResponse where
  id : Option String
  name : String
  response : String
  deriving DecidableEq, Repr

/-- Effects produced by one tool-execution task upon completion. -/
structure ToolTaskEffects where
  queued : List ToolFunctionResponse
  direct_sends : List ToolFunctionResponse
  deriving DecidableEq, Repr

/-- A function call of a Gemini tool-call batch. -/
structure FunctionCall where
  name : String
  args : String
  id : Option String
  deriving DecidableEq, Repr

/-- `ToolCallProcessor.use_callback_pattern` is hard-coded `True`, so
`process_tool_call` always takes the callback-registry path and the
queue-based `_execute_and_respond_individual` path is dead fallback
code. -/
def use_callback_pattern : Bool := true

/-- `ToolCallProcessor._execute_function_call`: look the function up; a
missing name or an exception inside the implementation is converted to an
error payload; exactly one `FunctionResponse` is always returned.
`found` models whether `fc.name` is in `available_functions` and
`outcome` the result of awaiting the implementation (`Except.error` is a
raised exception). -/
def execute_function_call (fc : FunctionCall) (found : Bool)
    (outcome : Except String String) : ToolFunctionResponse :=
  let content :=
    if found then
      match outcome with
      | Except.ok result => result
      | Except.error e => "status error: " ++ e
    else "status error: function " ++ fc.name ++ " not implemented or available"
  { id := fc.id, name := fc.name, response := content }

/-- `ToolCallProcessor._execute_and_respond_individual` (the fallback
path): execute, then put exactly one response on `tool_results_queue`;
an exception escaping the body (`outer_exc`) is caught and an error
`FunctionResponse` is queued instead.  Nothing is ever sent directly to
the assistant session from the task. -/
def execute_and_respond_individual (fc : FunctionCall) (found : Bool)
    (outcome : Except String String) (outer_exc : Option String) :
    ToolTaskEffects :=
  match outer_exc with
  | none => { queued := [execute_function_call fc found outcome], direct_sends := [] }
  | some e =>
    { queued := [{ id := fc.id, name := fc.name,
                   response := "status error: background execution failed: " ++ e }]
      direct_sends := [] }

/-- The dict returned by
`CallbackBasedFunctionRegistry.execute_function_async` (it catches
exceptions itself, so the task always resolves to a dict): a success or
error payload, plus whether the payload is the special
`{"status": "PENDING"}` dict of the non-blocking flight agent. -/
structure RegistryResult where
  payload : String
  is_pending_dict : Bool
  deriving DecidableEq, Repr

/-- `CallbackBasedFunctionRegistry._on_function_completed` (the active
callback path): await the task result and send one `FunctionResponse`
directly into the assistant session via `session.send_tool_response`
(both on the PENDING fast path and on the normal path), provided a
session is attached; nothing is ever put on `tool_results_queue`.  An
exception while awaiting the task is caught and logged, producing no
effect at all. -/
def on_function_completed (function_name : String) (call_id : Option String)
    (task_result : Except String RegistryResult) (has_session : Bool) :
    ToolTaskEffects :=
  match task_result with
  | Except.error _ => { queued := [], direct_sends := [] }
  | Except.ok r =>
    let response : ToolFunctionResponse :=
      { id := call_id, name := function_name, response := r.payload }
    if function_name = "Flight_Booking_Details_Agent" ∧ r.is_pending_dict then
      { queued := [], direct_sends := if has_session then [response] else [] }
    else
      { queued := [], direct_sends := if has_session then [response] else [] }

/-- Completion effects of the task launched for one call of a batch by
`ToolCallProcessor.process_tool_call`, as dispatched on
`use_callback_pattern`. -/
def tool_task_completion_effects (fc : FunctionCall)
    (task_result : Except String RegistryResult) (has_session : Bool)
    (found : Bool) (outcome : Except String String)
    (outer_exc : Option String) : ToolTaskEffects :=
  if use_callback_pattern then
    on_function_completed fc.name fc.id task_result has_session
  else
    execute_and_respond_individual fc found outcome outer_exc

/-! ### Relay events for the sequence-number invariant -/

/-- The two kinds of events that touch `audio_sequence_counter` state:
an audio chunk from the assistant stream (handled under the audio
processing lock by `process_audio_response`) and the client-ready
sentinel handled by the inbound loop. -/
inductive RelayEvent
  | geminiAudio (data : List ℕ) (now : ℚ)
  | clientReadySignal
  deriving Repr

/-- One relay step for the events above. -/
def relay_step (st : SessionState) : RelayEvent → SessionState × List ClientMsg
  | RelayEvent.geminiAudio data now => process_audio_response st data now
  | RelayEvent.clientReadySignal =>
    let r := handle_client_ready_signal st
    (r.1, r.2.1)

/-- The sequence numbers assigned at send-or-buffer time along a run:
both `_send_audio_immediately` and `_buffer_audio` assign
`audio_sequence_counter + 1` and store it, so the value of the counter
right after an audio event is the number assigned to that chunk. -/
def audio_seq_trace (st : SessionState) : List RelayEvent → List ℕ
  | [] => []
  | e :: es =>
    let p := relay_step st e
    match e with
    | RelayEvent.geminiAudio _ _ => p.1.audio_sequence_counter :: audio_seq_trace p.1 es
    | RelayEvent.clientReadySignal => audio_seq_trace p.1 es

/-- Number of audio events in a run. -/
def count_audio : List RelayEvent → ℕ
  | [] => 0
  | RelayEvent.geminiAudio _ _ :: es => count_audio es + 1
  | RelayEvent.clientReadySignal :: es => count_audio es

/-! ### Repeated buffer adds, for the buffer invariants -/

/-- One input to `add_audio_chunk`: raw bytes, optional metadata
override, current time. -/
structure AddInput where
  data : List ℕ
  override : Option MetaOverride
  now : ℚ
  deriving DecidableEq, Repr

/-- Run a sequence of `add_audio_chunk` calls.  Returns the final buffer,
the per-call eviction lists (in call order), and the per-call stored
chunks (in call order). -/
def run_adds (b : AudioBuffer) :
    List AddInput → AudioBuffer × List (List BufferedAudio) × List BufferedAudio
  | [] => (b, [], [])
  | i :: rest =>
    let p := b.add_audio_chunk i.data i.override i.now
    let q := run_adds p.2.1 rest
    (q.1, p.2.2 :: q.2.1, p.1 :: q.2.2)

/-- An empty audio buffer of capacity `N` (the claim's
"BoundedAudioBuffer of capacity N"). -/
def capBuffer (N : ℕ) : AudioBuffer :=
  { max_size := N, buffer := [], seq_counter := 0 }

/-! ### Concrete scenarios used by closed theorems -/

/-- A buffered-audio chunk metadata value as `add_audio_chunk` creates it. -/
def sampleMeta (seq size : ℕ) : ChunkMeta :=
  { sequence := seq
    size_bytes := size
    expected_duration_ms_x100 := duration_x100 size OUTPUT_SAMPLE_RATE
    sample_rate := OUTPUT_SAMPLE_RATE
    timestamp := 0
    buffered := true
    flushed_by_timeout := false }

/-- A session state whose mic buffer holds two chunks, as it would after
two inbound buffered adds. -/
def readyFlushScenario : SessionState :=
  { initSessionState 0 with
      mic_audio_buffer :=
        { max_size := MAX_BUFFER_SIZE
          buffer := [⟨[1, 1], sampleMeta 1 2⟩, ⟨[2, 2], sampleMeta 2 2⟩]
          seq_counter := 2 } }

/-- `server_content` carrying only a user (input) transcription fragment. -/
def scFrag (s : String) : ServerContent := ⟨some s, none, false, false⟩

/-- `server_content` carrying only a model (output) transcription fragment. -/
def scModelFrag (s : String) : ServerContent := ⟨none, some s, false, false⟩

/-- `server_content` carrying only the turn-complete flag. -/
def scTurnComplete : ServerContent := ⟨none, none, true, false⟩

/-- The utterance-aggregation scenario of the claim: user fragments
"Hel", "lo wor", "ld", a model fragment (so the model side is open at the
turn boundary), turn completion, then a fresh user fragment. -/
def utteranceScenario : List ServerContent :=
  [scFrag "Hel", scFrag "lo wor", scFrag "ld", scModelFrag "Hi",
   scTurnComplete, scFrag "again"]

/-- A delivery state whose single queued response was already processed
this session (its dedup key is in `processed_tool_calls`). -/
def dupDeliverScenario : DeliverState :=
  { queue := [QueuedItem.functionResponse "take_a_nap" (some "u1") (some "id1")]
    unfinished := 1
    processed_tool_calls := [dedupKey "take_a_nap" (some "u1")]
    is_gemini_speaking := true
    pending_tool_responses := 1
    is_tool_response := false
    sent_tool_responses := []
    sent_client_content := [] }

/-- A delivery state with a duplicate response queued ahead of a fresh
one. -/
def dupThenFreshScenario : DeliverState :=
  { queue := [QueuedItem.functionResponse "take_a_nap" (some "u1") (some "id1"),
              QueuedItem.functionResponse "Enquiry_Tool" (some "u2") (some "id2")]
    unfinished := 2
    processed_tool_calls := [dedupKey "take_a_nap" (some "u1")]
    is_gemini_speaking := true
    pending_tool_responses := 2
    is_tool_response := false
    sent_tool_responses := []
    sent_client_content := [] }

/-- A delivery state with two fresh queued responses. -/
def freshDeliverScenario : DeliverState :=
  { queue := [QueuedItem.functionResponse "take_a_nap" (some "u1") (some "id1"),
              QueuedItem.functionResponse "Enquiry_Tool" (some "u2") (some "id2")]
    unfinished := 2
    processed_tool_calls := []
    is_gemini_speaking := true
    pending_tool_responses := 2
    is_tool_response := false
    sent_tool_responses := []
    sent_client_content := [] }

/-! ## Theorems -/

/-! ### Shared helper lemmas -/

/-- Folding the metadata-then-bytes emission over a chunk list equals the
flat map of per-chunk two-message blocks. -/
theorem foldl_emit_eq_flatMap {α β : Type} (f g : α → β) (l : List α)
    (acc : List β) :
    l.foldl (fun a c => a ++ [f c, g c]) acc =
      acc ++ l.flatMap (fun c => [f c, g c]) := by
  induction l generalizing acc with
  | nil => simp
  | cons h t ih => simp [ih, List.append_assoc]

/-- `_remove_overflow_chunks` keeps exactly the last `max_size` elements
and removes exactly the leading overflow, in order. -/
theorem removeOverflowChunks_eq {α : Type} (m : ℕ) (l : List α) :
    removeOverflowChunks m l = (l.drop (l.length - m), l.take (l.length - m)) := by
  induction l with
  | nil => simp [removeOverflowChunks]
  | cons h t ih =>
    unfold removeOverflowChunks
    by_cases hc : t.length + 1 > m
    · rw [if_pos hc, ih]
      have hm : m ≤ t.length := Nat.lt_succ_iff.mp hc
      have e : t.length + 1 - m = (t.length - m) + 1 := by omega
      simp [e]
    · rw [if_neg hc]
      have e : t.length + 1 - m = 0 := by omega
      simp [e]

/-! ### C10 — flush_all returns everything in order and empties the buffer -/

/-- C10: `flush_all()` returns all buffered items in original insertion
order (oldest first) and leaves the buffer empty, so a second immediate
`flush_all()` yields the empty list. -/
theorem flush_all_order_and_empty (b : AudioBuffer) :
    (b.flush_all).1 = b.buffer ∧
    (b.flush_all).2.buffer = [] ∧
    ((b.flush_all).2.flush_all).1 = [] :=
  ⟨rfl, rfl, rfl⟩

/-! ### C3 — inbound audio is forwarded unconditionally (corrected) -/

/-- C3 counterexample: with `client_ready_for_audio = false`, a non-empty
binary audio chunk is NOT routed through the mic buffer — it is forwarded
immediately to the assistant stream as raw realtime audio, and the mic
buffer is untouched. -/
theorem audio_before_ready_counterexample :
    (initSessionState 0).client_ready_for_audio = false ∧
    (handle_audio_data (initSessionState 0) [1, 2]).2 ≠ [] ∧
    (handle_audio_data (initSessionState 0) [1, 2]).2 =
      [AssistantMsg.realtimeAudio [1, 2]] ∧
    (handle_audio_data (initSessionState 0) [1, 2]).1.mic_audio_buffer =
      (initSessionState 0).mic_audio_buffer := by
  refine ⟨rfl, ?_, rfl, rfl⟩
  decide

/-- C3 amended: every non-empty binary audio message from the client is
forwarded immediately to the assistant stream as raw bytes with no
metadata envelope, regardless of `client_ready_for_audio`; empty chunks
are dropped; the session state (including the mic buffer) is never
touched. -/
theorem handle_audio_data_forwards (st : SessionState) (d : List ℕ) :
    (handle_audio_data st d).1 = st ∧
    ((handle_audio_data st d).2 = [] ↔ d = []) ∧
    (d ≠ [] → (handle_audio_data st d).2 = [AssistantMsg.realtimeAudio d]) := by
  by_cases h : d = [] <;> simp [handle_audio_data, h]

/-- C3 witness: the amended theorem applied at a concrete non-empty
chunk. -/
theorem handle_audio_data_forwards_witness :
    (handle_audio_data (initSessionState 0) [3]).2 =
      [AssistantMsg.realtimeAudio [3]] :=
  (handle_audio_data_forwards (initSessionState 0) [3]).2.2 (by decide)

/-! ### C4 — the ready-signal flush goes to the client, not the assistant
stream (corrected) -/

/-- C4 counterexample: on the client-ready sentinel, with two chunks in
the mic buffer, nothing at all is sent into the assistant session — the
claim's "emitting each buffered chunk to the assistant stream" fails. -/
theorem client_ready_flush_counterexample :
    readyFlushScenario.mic_audio_buffer.buffer.length = 2 ∧
    (handle_client_ready_signal readyFlushScenario).2.2 = [] :=
  ⟨rfl, rfl⟩

/-- C4 amended: the ready sentinel sets `client_ready_for_audio`, flushes
the mic buffer entirely and emits, on the CLIENT websocket, each buffered
chunk's metadata record (with `flushed_by_timeout = true` stamped on)
followed by its bytes, preserving FIFO order; nothing is sent to the
assistant stream. -/
theorem client_ready_flush_to_client (st : SessionState) :
    (handle_client_ready_signal st).1.client_ready_for_audio = true ∧
    (handle_client_ready_signal st).1.mic_audio_buffer.buffer = [] ∧
    (handle_client_ready_signal st).2.1 =
      st.mic_audio_buffer.buffer.flatMap (fun c =>
        [ClientMsg.audioMetadata { c.metadata with flushed_by_timeout := true },
         ClientMsg.audioBytes c.audio_data]) ∧
    (handle_client_ready_signal st).2.2 = [] := by
  refine ⟨rfl, rfl, ?_, rfl⟩
  simpa using foldl_emit_eq_flatMap
    (fun c : BufferedAudio =>
      ClientMsg.audioMetadata { c.metadata with flushed_by_timeout := true })
    (fun c : BufferedAudio => ClientMsg.audioBytes c.audio_data)
    st.mic_audio_buffer.buffer []

/-! ### C7 — utterance aggregation (confirmed) -/

/-- C7: feeding user fragments "Hel", "lo wor", "ld" produces incremental
updates with accumulated texts "Hel", "Hello wor", "Hello world" and
`is_final = false`; turn completion emits one final update "Hello world"
with `is_final = true`; the utterance id (0) is identical across all
four; a subsequent fragment opens a fresh id (2 ≠ 0); and turn completion
resets both the user-side and model-side utterance state to `none` id and
empty text. -/
theorem utterance_aggregation :
    (run_transcriptions (initSessionState 0) utteranceScenario).2 =
      [ClientMsg.transcriptionUpdate 0 "Hel" "user" "user_transcription_update" false,
       ClientMsg.transcriptionUpdate 0 "Hello wor" "user" "user_transcription_update" false,
       ClientMsg.transcriptionUpdate 0 "Hello world" "user" "user_transcription_update" false,
       ClientMsg.transcriptionUpdate 1 "Hi" "model" "model_response_update" false,
       ClientMsg.transcriptionUpdate 0 "Hello world" "user" "user_transcription_update" true,
       ClientMsg.transcriptionUpdate 2 "again" "user" "user_transcription_update" false] ∧
    (run_transcriptions (initSessionState 0)
        (utteranceScenario.take 5)).1.current_user_utterance_id = none ∧
    (run_transcriptions (initSessionState 0)
        (utteranceScenario.take 5)).1.accumulated_user_speech_text = "" ∧
    (run_transcriptions (initSessionState 0)
        (utteranceScenario.take 5)).1.current_model_utterance_id = none ∧
    (run_transcriptions (initSessionState 0)
        (utteranceScenario.take 5)).1.accumulated_model_speech_text = "" ∧
    (run_transcriptions (initSessionState 0)
        utteranceScenario).1.current_user_utterance_id = some 2 := by
  refine ⟨?_, ?_, ?_, ?_, ?_, ?_⟩ <;> decide

/-! ### C8 — silence-based delivery gate (confirmed) -/

/-- C8: the silence check is a no-op unless Gemini is speaking and the
results queue is non-empty; given those preconditions and a set (positive)
`last_audio_timestamp`, it triggers delivery with reason
"speech_gap_detected" exactly when `now - last > 1.5`; concretely a 2.0s
gap triggers and a 1.0s gap does not. -/
theorem speech_gap_gate :
    (∀ (sp : SpeechState) (q : Bool) (now : ℚ),
        sp.is_gemini_speaking = false ∨ q = true →
        check_speech_completion sp q now = none) ∧
    (∀ (sp : SpeechState) (now t : ℚ),
        sp.is_gemini_speaking = true →
        sp.last_audio_timestamp = some t →
        0 < t →
        (check_speech_completion sp false now = some "speech_gap_detected" ↔
          now - t > 3 / 2)) ∧
    check_speech_completion ⟨true, some 8, none, 0⟩ false 10 =
      some "speech_gap_detected" ∧
    check_speech_completion ⟨true, some 9, none, 0⟩ false 10 = none := by
  refine ⟨?_, ?_, ?_, ?_⟩
  · intro sp q now h
    rcases h with h | h <;> simp [check_speech_completion, h]
  · intro sp now t hs hl ht
    have ht0 : ¬ t = 0 := (ne_of_gt ht)
    by_cases hgt : now - t > 3 / 2 <;>
      simp [check_speech_completion, hs, hl, ht0,
        SPEECH_COMPLETION_THRESHOLD, hgt]
  · have h8 : ¬ (8 : ℚ) = 0 := by norm_num
    have hgt : (10 : ℚ) - 8 > 3 / 2 := by norm_num
    simp [check_speech_completion, SPEECH_COMPLETION_THRESHOLD, h8, hgt]
  · have h9 : ¬ (9 : ℚ) = 0 := by norm_num
    have hgt : ¬ ((10 : ℚ) - 9 > 3 / 2) := by norm_num
    simp [check_speech_completion, SPEECH_COMPLETION_THRESHOLD, h9, hgt]

/-- C8 witness: the gate theorem applied at concrete inputs, discharging
each hypothesis there. -/
theorem speech_gap_gate_witness :
    check_speech_completion ⟨false, none, none, 0⟩ true 5 = none ∧
    (check_speech_completion ⟨true, some 8, none, 0⟩ false 10 =
        some "speech_gap_detected" ↔ (10 : ℚ) - 8 > 3 / 2) :=
  ⟨speech_gap_gate.1 ⟨false, none, none, 0⟩ true 5 (Or.inl rfl),
   speech_gap_gate.2.1 ⟨true, some 8, none, 0⟩ 10 8 rfl rfl (by norm_num)⟩

/-! ### C1 — queue drain with duplicates double-acknowledges (code bug) -/

/-- C1: the drain loop of `_deliver_queued_tool_responses` calls
`task_done()` twice for a skipped duplicate (the explicit call plus the
`finally:` block, which also runs on `continue`), so a drain that skips
any duplicate raises `ValueError` instead of completing: with a single
already-processed response queued the call aborts (first conjunct); with
a duplicate queued ahead of a fresh response the fresh response is never
delivered either (second conjunct).  Without duplicates the drain behaves
exactly as the claim says: FIFO delivery of every response, dedup keys
recorded, `is_gemini_speaking` reset and `pending_tool_responses`
decremented by the delivered count, floored at 0 (third conjunct). -/
theorem deliver_dup_double_ack :
    deliver_queued_tool_responses dupDeliverScenario =
      Except.error "task_done called too many times" ∧
    deliver_queued_tool_responses dupThenFreshScenario =
      Except.error "task_done called too many times" ∧
    deliver_queued_tool_responses freshDeliverScenario =
      Except.ok
        { queue := []
          unfinished := 0
          processed_tool_calls :=
            [dedupKey "Enquiry_Tool" (some "u2"), dedupKey "take_a_nap" (some "u1")]
          is_gemini_speaking := false
          pending_tool_responses := 0
          is_tool_response := true
          sent_tool_responses :=
            [QueuedItem.functionResponse "take_a_nap" (some "u1") (some "id1"),
             QueuedItem.functionResponse "Enquiry_Tool" (some "u2") (some "id2")]
          sent_client_content := [] } := by
  refine ⟨rfl, rfl, rfl⟩

/-! ### C2 — the active tool path sends directly, not via the queue
(corrected) -/

/-- C2 counterexample: `use_callback_pattern` is hard-coded true, so the
task launched for a call completes through the callback registry, which
enqueues nothing on the shared results queue and sends the tool response
directly to the assistant stream — the claim's "enqueues exactly one
ToolResponse ... and never sends directly" is false for the active
path. -/
theorem tool_task_direct_send_counterexample :
    use_callback_pattern = true ∧
    (tool_task_completion_effects ⟨"take_a_nap", "", some "id1"⟩
        (Except.ok ⟨"ok", false⟩) true true (Except.ok "ok") none).queued = [] ∧
    (tool_task_completion_effects ⟨"take_a_nap", "", some "id1"⟩
        (Except.ok ⟨"ok", false⟩) true true (Except.ok "ok") none).direct_sends =
      [{ id := some "id1", name := "take_a_nap", response := "ok" }] ∧
    ¬ ((tool_task_completion_effects ⟨"take_a_nap", "", some "id1"⟩
          (Except.ok ⟨"ok", false⟩) true true (Except.ok "ok") none).queued.length = 1 ∧
       (tool_task_completion_effects ⟨"take_a_nap", "", some "id1"⟩
          (Except.ok ⟨"ok", false⟩) true true (Except.ok "ok") none).direct_sends = []) := by
  refine ⟨rfl, ?_, ?_, ?_⟩ <;> decide

/-- C2 amended: only the dead fallback path
(`_execute_and_respond_individual`, reached when `use_callback_pattern`
is false) enqueues exactly one ToolResponse per task and never sends
directly; the active callback path (`_on_function_completed`) never
enqueues and instead sends exactly one response directly to the assistant
stream when the task resolved and a session is attached, and nothing at
all when awaiting the task raised. -/
theorem tool_task_effects_amended :
    (∀ (fc : FunctionCall) (found : Bool) (outcome : Except String String)
        (oe : Option String),
        (execute_and_respond_individual fc found outcome oe).queued.length = 1 ∧
        (execute_and_respond_individual fc found outcome oe).direct_sends = []) ∧
    (∀ (name : String) (cid : Option String) (r : RegistryResult),
        (on_function_completed name cid (Except.ok r) true).direct_sends.length = 1 ∧
        (on_function_completed name cid (Except.ok r) true).queued = []) ∧
    (∀ (name : String) (cid : Option String) (e : String),
        on_function_completed name cid (Except.error e) true =
          { queued := [], direct_sends := [] }) := by
  refine ⟨?_, ?_, ?_⟩
  · intro fc found outcome oe
    cases oe <;> simp [execute_and_respond_individual]
  · intro name cid r
    simp only [on_function_completed]
    split <;> simp
  · intro name cid e
    rfl

/-! ### C5 — bounded-buffer invariants (confirmed) -/

/-- One `add_audio_chunk` call appends the freshly built chunk, keeps
exactly the newest `max_size` items, removes exactly the leading
overflow (in FIFO order), and increments the internal counter. -/
theorem add_audio_chunk_parts (b : AudioBuffer) (d : List ℕ)
    (ov : Option MetaOverride) (now : ℚ) :
    (b.add_audio_chunk d ov now).2.1.buffer =
      (b.buffer ++ [(b.add_audio_chunk d ov now).1]).drop
        ((b.buffer ++ [(b.add_audio_chunk d ov now).1]).length - b.max_size) ∧
    (b.add_audio_chunk d ov now).2.2 =
      (b.buffer ++ [(b.add_audio_chunk d ov now).1]).take
        ((b.buffer ++ [(b.add_audio_chunk d ov now).1]).length - b.max_size) ∧
    (b.add_audio_chunk d ov now).2.1.max_size = b.max_size ∧
    (b.add_audio_chunk d ov now).2.1.seq_counter = b.seq_counter + 1 := by
  unfold AudioBuffer.add_audio_chunk
  dsimp only
  split
  next h =>
    rw [removeOverflowChunks_eq]
    exact ⟨rfl, rfl, rfl, rfl⟩
  next h =>
    simp only [List.length_append, List.length_cons, List.length_nil, gt_iff_lt,
      not_lt] at h
    have e : ∀ c : BufferedAudio, (b.buffer ++ [c]).length - b.max_size = 0 := by
      intro c
      simp only [List.length_append, List.length_cons, List.length_nil]
      omega
    refine ⟨?_, ?_, rfl, rfl⟩
    · rw [e, List.drop_zero]
    · rw [e, List.take_zero]

/-- Lengths: `run_adds` stores exactly one chunk per input. -/
theorem run_adds_stored_length (b : AudioBuffer) (l : List AddInput) :
    (run_adds b l).2.2.length = l.length := by
  induction l generalizing b with
  | nil => rfl
  | cons i rest ih => simp [run_adds, ih]

/-- Invariant of repeated `add_audio_chunk` calls: starting from a buffer
within capacity `N`, the final buffer is exactly the newest `N` of
(initial contents ++ stored chunks), the concatenated evictions are
exactly the oldest overflow in FIFO order, and the buffer never exceeds
`N`. -/
theorem run_adds_spec (N : ℕ) (l : List AddInput) :
    ∀ (b : AudioBuffer), b.max_size = N → b.buffer.length ≤ N →
    (run_adds b l).1.buffer =
      (b.buffer ++ (run_adds b l).2.2).drop
        ((b.buffer ++ (run_adds b l).2.2).length - N) ∧
    (run_adds b l).2.1.flatten =
      (b.buffer ++ (run_adds b l).2.2).take
        ((b.buffer ++ (run_adds b l).2.2).length - N) ∧
    (run_adds b l).1.buffer.length ≤ N ∧
    (run_adds b l).1.max_size = N := by
  induction l with
  | nil =>
    intro b hmax hlen
    have h0 : b.buffer.length - N = 0 := by omega
    simp [run_adds, h0, hmax, hlen]
  | cons i rest ih =>
    intro b hmax hlen
    simp only [run_adds]
    obtain ⟨hb, hr, hm, _⟩ := add_audio_chunk_parts b i.data i.override i.now
    rw [hmax] at hb hr hm
    have hlen1 : (b.add_audio_chunk i.data i.override i.now).2.1.buffer.length ≤ N := by
      rw [hb]
      simp only [List.length_drop]
      omega
    obtain ⟨ihb, ihf, ihlen, ihmax⟩ :=
      ih (b.add_audio_chunk i.data i.override i.now).2.1 hm hlen1
    set A := b.add_audio_chunk i.data i.override i.now with hA
    set Q := run_adds A.2.1 rest with hQ
    have hsplit : b.buffer ++ A.1 :: Q.2.2 = A.2.2 ++ (A.2.1.buffer ++ Q.2.2) := by
      rw [hb, hr, ← List.append_assoc, List.take_append_drop]
      simp
    refine ⟨?_, ?_, ihlen, ihmax⟩
    · rw [hsplit, ihb]
      by_cases hcase : b.buffer.length + 1 ≤ N
      · have h0 : (b.buffer ++ [A.1]).length - N = 0 := by
          simp only [List.length_append, List.length_cons, List.length_nil]
          omega
        rw [hr, h0]
        simp
      · have hremlen : A.2.2.length = b.buffer.length + 1 - N := by
          rw [hr]
          simp only [List.length_take, List.length_append, List.length_cons,
            List.length_nil]
          omega
        have hkept : A.2.1.buffer.length = N := by
          rw [hb]
          simp only [List.length_drop, List.length_append, List.length_cons,
            List.length_nil]
          omega
        have hge : A.2.2.length ≤ (A.2.2 ++ (A.2.1.buffer ++ Q.2.2)).length - N := by
          simp only [List.length_append, hremlen, hkept]
          omega
        conv_rhs => rw [List.drop_append_eq_append_drop]
        rw [List.drop_eq_nil_of_le hge, List.nil_append]
        have harith : (A.2.2 ++ (A.2.1.buffer ++ Q.2.2)).length - N - A.2.2.length =
            (A.2.1.buffer ++ Q.2.2).length - N := by
          simp only [List.length_append, hremlen, hkept]
          omega
        rw [harith]
    · simp only [List.flatten_cons]
      rw [hsplit, ihf]
      by_cases hcase : b.buffer.length + 1 ≤ N
      · have h0 : (b.buffer ++ [A.1]).length - N = 0 := by
          simp only [List.length_append, List.length_cons, List.length_nil]
          omega
        rw [hr, h0]
        simp
      · have hremlen : A.2.2.length = b.buffer.length + 1 - N := by
          rw [hr]
          simp only [List.length_take, List.length_append, List.length_cons,
            List.length_nil]
          omega
        have hkept : A.2.1.buffer.length = N := by
          rw [hb]
          simp only [List.length_drop, List.length_append, List.length_cons,
            List.length_nil]
          omega
        have hge : A.2.2.length ≤ (A.2.2 ++ (A.2.1.buffer ++ Q.2.2)).length - N := by
          simp only [List.length_append, hremlen, hkept]
          omega
        conv_rhs => rw [List.take_append_eq_append_take]
        rw [List.take_of_length_le hge]
        have harith : (A.2.2 ++ (A.2.1.buffer ++ Q.2.2)).length - N - A.2.2.length =
            (A.2.1.buffer ++ Q.2.2).length - N := by
          simp only [List.length_append, hremlen, hkept]
          omega
        rw [harith]

/-- C5: for every sequence of `add()` calls on a buffer of capacity `N`:
after each call the buffer length is at most `N`; the kept items are
exactly the newest `N` stored chunks in original order; the evicted
items, concatenated in call order, are exactly the oldest stored chunks
in FIFO order (each call's eviction list being what `add` returned to the
caller); and exactly one chunk is stored per call. -/
theorem bounded_buffer_fifo (N : ℕ) (inputs : List AddInput) :
    (∀ i : ℕ, (run_adds (capBuffer N) (inputs.take i)).1.buffer.length ≤ N) ∧
    (run_adds (capBuffer N) inputs).1.buffer =
      (run_adds (capBuffer N) inputs).2.2.drop
        ((run_adds (capBuffer N) inputs).2.2.length - N) ∧
    (run_adds (capBuffer N) inputs).2.1.flatten =
      (run_adds (capBuffer N) inputs).2.2.take
        ((run_adds (capBuffer N) inputs).2.2.length - N) ∧
    (run_adds (capBuffer N) inputs).2.2.length = inputs.length := by
  have hcap : (capBuffer N).max_size = N := rfl
  have hempty : (capBuffer N).buffer.length ≤ N := by
    simp [capBuffer]
  refine ⟨?_, ?_, ?_, run_adds_stored_length _ _⟩
  · intro i
    exact (run_adds_spec N (inputs.take i) (capBuffer N) hcap hempty).2.2.1
  · have h := (run_adds_spec N inputs (capBuffer N) hcap hempty).1
    simpa [capBuffer] using h
  · have h := (run_adds_spec N inputs (capBuffer N) hcap hempty).2.1
    simpa [capBuffer] using h

/-! ### C6 — sequence numbers strictly increasing by 1 (confirmed) -/

/-- Every audio event — whichever of the timeout-flush / live-send /
buffered paths it takes — increments `audio_sequence_counter` by exactly
one and uses the new value as the assigned sequence number. -/
theorem process_audio_counter_succ (st : SessionState) (d : List ℕ) (now : ℚ) :
    (process_audio_response st d now).1.audio_sequence_counter =
      st.audio_sequence_counter + 1 := by
  simp only [process_audio_response]
  split <;> split <;>
    simp [send_audio_immediately, buffer_audio, handle_buffer_timeout]

/-- The client-ready handler never touches the sequence counter. -/
theorem ready_signal_counter (st : SessionState) :
    (handle_client_ready_signal st).1.audio_sequence_counter =
      st.audio_sequence_counter := rfl

/-- C6: over any interleaving of assistant-audio events (live or
buffered, including timeout flushes) and client-ready signals, the
sequence numbers assigned at send-or-buffer time are exactly
`counter+1, counter+2, ...` — strictly increasing by 1, no gaps, no
duplicates; and on the live path the assigned number is the one emitted
in the playback-state signal and metadata. -/
theorem audio_sequence_no_gaps :
    (∀ (st : SessionState) (es : List RelayEvent),
      audio_seq_trace st es =
        List.range' (st.audio_sequence_counter + 1) (count_audio es)) ∧
    (∀ (st : SessionState) (d : List ℕ) (now : ℚ),
      st.client_ready_for_audio = true →
      (process_audio_response st d now).2 =
        [ClientMsg.playbackState (st.audio_sequence_counter + 1) (!DISABLE_VAD),
         ClientMsg.audioMetadata (create_metadata (st.audio_sequence_counter + 1)
           d.length (some OUTPUT_SAMPLE_RATE) now),
         ClientMsg.audioBytes d]) := by
  constructor
  · intro st es
    induction es generalizing st with
    | nil => rfl
    | cons e rest ih =>
      cases e with
      | geminiAudio d t =>
        simp only [audio_seq_trace, count_audio, relay_step]
        rw [ih, process_audio_counter_succ, List.range'_succ]
      | clientReadySignal =>
        simp only [audio_seq_trace, count_audio, relay_step]
        rw [ih, ready_signal_counter]
  · intro st d now h
    simp [process_audio_response, send_audio_immediately, h]

/-- C6 witness: the live-path conjunct applied at a concrete ready
state. -/
theorem audio_sequence_no_gaps_witness :
    (process_audio_response
        { initSessionState 0 with client_ready_for_audio := true } [1, 2] 5).2 =
      [ClientMsg.playbackState 1 true,
       ClientMsg.audioMetadata (create_metadata 1 2 (some OUTPUT_SAMPLE_RATE) 5),
       ClientMsg.audioBytes [1, 2]] :=
  audio_sequence_no_gaps.2
    { initSessionState 0 with client_ready_for_audio := true } [1, 2] 5 rfl

/-! ### C9 — expected_duration_ms carries Python rounding (corrected) -/

/-- C9 counterexample: for a 1024-byte chunk at 24000 Hz the stored
duration is 21.33 ms (2133 hundredths, after Python `round(x, 2)`), but
`(size_bytes / 2) / sample_rate * 1000 = 64/3 = 21.333... ms` — the two
differ, so the claim's exact equality fails. -/
theorem duration_rounding_counterexample :
    (create_metadata 1 1024 (some OUTPUT_SAMPLE_RATE) 0).expected_duration_ms_x100
      = 2133 ∧
    (2133 : ℚ) / 100 ≠ (1024 / 2 : ℚ) / 24000 * 1000 := by
  constructor
  · decide
  · norm_num

/-- Python rounding is correct rounding: `roundx100 n d` is within half a
unit (of the hundredths scale) of the exact value `n/d * 100`, i.e. the
rounded 2-decimal value is within `1/200` of the exact one. -/
theorem roundx100_close (n d : ℕ) (hd : 0 < d) :
    |((roundx100 n d : ℚ) / 100) - (n : ℚ) / d| ≤ 1 / 200 := by
  have hdq : (0 : ℚ) < d := by exact_mod_cast hd
  have hmod := Nat.div_add_mod (n * 100) d
  have hmodlt : (n * 100) % d < d := Nat.mod_lt _ hd
  set q := n * 100 / d with hq
  set r := n * 100 % d with hr
  have hm' : (n : ℚ) * 100 = d * q + r := by exact_mod_cast hmod.symm
  have hrq0 : (0 : ℚ) ≤ r := by positivity
  have hrqd : (r : ℚ) < d := by exact_mod_cast hmodlt
  have hval : (n : ℚ) / d = (d * q + r) / (100 * d) := by
    rw [← hm']
    field_simp
    ring
  unfold roundx100
  rw [← hr, ← hq]
  split
  next hlt =>
    have hlt' : 2 * (r : ℚ) < d := by exact_mod_cast hlt
    have hx : (q : ℚ) / 100 - (n : ℚ) / d = -((r : ℚ) / (100 * d)) := by
      rw [hval]
      field_simp
      ring
    rw [hx, abs_neg, abs_of_nonneg (by positivity)]
    rw [div_le_div_iff (by positivity) (by norm_num)]
    nlinarith
  next hlt =>
    split
    next hgt =>
      have hgt' : (d : ℚ) < 2 * r := by exact_mod_cast hgt
      have hx : ((q : ℚ) + 1) / 100 - (n : ℚ) / d = ((d : ℚ) - r) / (100 * d) := by
        rw [hval]
        field_simp
        ring
      have hcast : (((q + 1 : ℕ) : ℚ)) = (q : ℚ) + 1 := by push_cast; ring
      rw [hcast, hx, abs_of_nonneg (div_nonneg (by linarith) (by positivity))]
      rw [div_le_div_iff (by positivity) (by norm_num)]
      nlinarith
    next hgt =>
      have he : 2 * r = d := by omega
      have he' : 2 * (r : ℚ) = d := by exact_mod_cast he
      split
      next hpar =>
        have hx : (q : ℚ) / 100 - (n : ℚ) / d = -((r : ℚ) / (100 * d)) := by
          rw [hval]
          field_simp
          ring
        rw [hx, abs_neg, abs_of_nonneg (by positivity)]
        rw [div_le_div_iff (by positivity) (by norm_num)]
        nlinarith
      next hpar =>
        have hx : ((q : ℚ) + 1) / 100 - (n : ℚ) / d = ((d : ℚ) - r) / (100 * d) := by
          rw [hval]
          field_simp
          ring
        have hcast : (((q + 1 : ℕ) : ℚ)) = (q : ℚ) + 1 := by push_cast; ring
        rw [hcast, hx, abs_of_nonneg (div_nonneg (by linarith) (by positivity))]
        rw [div_le_div_iff (by positivity) (by norm_num)]
        nlinarith

/-- C9 amended: both metadata producers store
`round((size_bytes // 2) / sample_rate * 1000, 2)` — the PCM16 formula of
the claim with integer division by 2 and the value rounded to two
decimals — and that stored value is within 0.005 ms of
`(size_bytes // 2) / sample_rate * 1000`. -/
theorem duration_formula_rounded :
    (∀ (seq size rate : ℕ) (ts : ℚ), 0 < rate →
      (create_metadata seq size (some rate) ts).expected_duration_ms_x100 =
        roundx100 (size / 2 * 1000) rate) ∧
    (∀ (b : AudioBuffer) (d : List ℕ) (ov : Option MetaOverride) (now : ℚ),
      (b.add_audio_chunk d ov now).1.metadata.expected_duration_ms_x100 =
        roundx100 (d.length / 2 * 1000) OUTPUT_SAMPLE_RATE) ∧
    (∀ (size rate : ℕ), 0 < rate →
      |((roundx100 (size / 2 * 1000) rate : ℚ) / 100) -
          ((size / 2 : ℕ) : ℚ) / rate * 1000| ≤ 1 / 200) := by
  refine ⟨?_, ?_, ?_⟩
  · intro seq size rate ts hrate
    simp [create_metadata, duration_x100, Nat.pos_iff_ne_zero.mp hrate]
  · intro b d ov now
    unfold AudioBuffer.add_audio_chunk
    dsimp only
    split <;> cases ov <;> rfl
  · intro size rate hrate
    have hfold : ((size / 2 : ℕ) : ℚ) / rate * 1000 =
        ((size / 2 * 1000 : ℕ) : ℚ) / rate := by
      push_cast
      ring
    rw [hfold]
    exact roundx100_close (size / 2 * 1000) rate hrate

/-- C9 witness: the amended theorem applied at the concrete 1024-byte /
24000 Hz chunk of the counterexample. -/
theorem duration_formula_rounded_witness :
    (create_metadata 1 1024 (some 24000) 0).expected_duration_ms_x100 =
      roundx100 (1024 / 2 * 1000) 24000 ∧
    |((roundx100 (1024 / 2 * 1000) 24000 : ℚ) / 100) -
        ((1024 / 2 : ℕ) : ℚ) / (24000 : ℕ) * 1000| ≤ 1 / 200 :=
  ⟨duration_formula_rounded.1 1 1024 24000 0 (by norm_num),
   duration_formula_rounded.2.2 1024 24000 (by norm_num)⟩

end GeminiRelay
